import Mathlib

/-!
# Verification of the media upload / recognition subsystem of `mcp_video_recognition`

This file shallowly embeds the TypeScript sources of the repository and proves
properties about them:

* `GeminiService.uploadFile` and `GeminiService.processFile`
  (`src/services/gemini.ts`, the `@google/genai` version): MIME
  classification by file extension, the upload call, the missing-URI check,
  and error handling of content generation.
* the `video_recognition` tool callback (`src/tools/video-recognition.ts`):
  existence check, video-extension allowlist, and error propagation.
* a model of Node's `path.extname` and of `String.prototype.toLowerCase`
  (restricted to basic Latin letters), which the sources call.
* the upload-cache-and-readiness-polling subsystem described by the
  specification (content-identity cache with a 24 h TTL and a 2 s / 300 s
  readiness polling loop).  The file implementing that subsystem is not
  among the provided sources (the video tool refers to it: it imports
  `FileState` and notes that `uploadFile` "will handle waiting for video
  processing"), so those definitions are modelled from the spec and are
  marked as such.

External effects (the filesystem, the remote Gemini API and the clock) are
passed in as explicit oracles, and every collaborator invocation is
recorded in a returned call trace, so "performs no network call" is the
statement that the trace is empty.
-/

namespace MediaUpload

/-! ## Characters and lowercasing

The TypeScript sources lowercase extensions with `String.prototype.toLowerCase`.
We model it character-wise by core's `Char.toLower`, which matches JavaScript
on the basic Latin range (the only range the comparisons in the source involve).
-/

/-- Model of `String.prototype.toLowerCase`: lowercase every character
(basic Latin only, exactly as `Char.toLower` does). -/
def lowerStr (s : String) : String :=
  ⟨s.data.map Char.toLower⟩

theorem char_toNat_ofNat {n : Nat} (h : n.isValidChar) : (Char.ofNat n).toNat = n := by
  rw [Char.ofNat, dif_pos h]
  rfl

theorem toLower_toNat_of_upper {c : Char} (h : 65 ≤ c.toNat ∧ c.toNat ≤ 90) :
    (Char.toLower c).toNat = c.toNat + 32 := by
  rw [Char.toLower]
  simp only [ge_iff_le, h, if_pos, and_self]
  exact char_toNat_ofNat (Or.inl (by omega))

theorem toLower_of_not_upper {c : Char} (h : ¬(65 ≤ c.toNat ∧ c.toNat ≤ 90)) :
    Char.toLower c = c := by
  rw [Char.toLower]
  simp only [ge_iff_le]
  rw [if_neg h]

theorem toLower_idem (c : Char) : Char.toLower (Char.toLower c) = Char.toLower c := by
  by_cases h : 65 ≤ c.toNat ∧ c.toNat ≤ 90
  · have h1 := toLower_toNat_of_upper h
    exact toLower_of_not_upper (by omega)
  · rw [toLower_of_not_upper h]
    exact toLower_of_not_upper h

theorem toLower_ne_of_lt {c d : Char} (hd : d.toNat < 65) (h : c ≠ d) :
    Char.toLower c ≠ d := by
  by_cases hu : 65 ≤ c.toNat ∧ c.toNat ≤ 90
  · have h1 := toLower_toNat_of_upper hu
    intro he
    have : (Char.toLower c).toNat = d.toNat := by rw [he]
    omega
  · rw [toLower_of_not_upper hu]
    exact h

theorem toLower_dot : Char.toLower '.' = '.' := by
  apply toLower_of_not_upper
  decide

/-! ## `path.extname`

Model of Node's `path.extname` (POSIX): the extension is the substring of the
basename (the part of the path after the last `/`) starting at its last `.`,
unless that dot is the basename's first character, there is no dot, or the
basename is `..` — in those cases the extension is empty.

We compute on the *reversed* character list: the reversed basename is
`takeWhile (· ≠ '/')` of the reversed path, and the last dot of the basename
is the first dot of its reversal.
-/

/-- Predicate: `c` is not a dot (`Bool`-valued, for `takeWhile`). -/
def notDot (c : Char) : Bool := c ≠ '.'

/-- Predicate: `c` is not a path separator (`Bool`-valued, for `takeWhile`). -/
def notSlash (c : Char) : Bool := c ≠ '/'

/-- The extension, reversed, of a reversed basename. -/
def extRev (rb : List Char) : List Char :=
  if rb = ['.', '.'] then []
  else if (rb.takeWhile notDot).length = rb.length then []
  else if (rb.takeWhile notDot).length + 1 = rb.length then []
  else rb.takeWhile notDot ++ ['.']

/-- Model of Node's `path.extname`. -/
def extname (p : String) : String :=
  ⟨(extRev (p.data.reverse.takeWhile notSlash)).reverse⟩

/-- The same path with its extension lowercased: the stem is kept and the
extension returned by `extname` is mapped through `Char.toLower`. -/
def lowerExtPath (p : String) : String :=
  ⟨p.data.take (p.data.length - (extname p).data.length) ++
    (extname p).data.map Char.toLower⟩

theorem toLower_ne_dot {c : Char} (h : c ≠ '.') : Char.toLower c ≠ '.' :=
  toLower_ne_of_lt (by decide) h

theorem toLower_ne_slash {c : Char} (h : c ≠ '/') : Char.toLower c ≠ '/' :=
  toLower_ne_of_lt (by decide) h

/-- Case analysis on `extRev`: the reversed extension is empty, or the
reversed basename splits as `pre ++ '.' :: tl` with a dot-free `pre` and a
nonempty `tl`, and the reversed extension is `pre ++ ['.']`. -/
theorem extRev_cases (rb : List Char) :
    extRev rb = [] ∨
    ∃ pre tl, rb = pre ++ '.' :: tl ∧ tl ≠ [] ∧ (∀ c ∈ pre, c ≠ '.') ∧
      rb ≠ ['.', '.'] ∧ extRev rb = pre ++ ['.'] := by
  by_cases h2 : rb = ['.', '.']
  · left
    simp [extRev, h2]
  by_cases hlen : (rb.takeWhile notDot).length = rb.length
  · left
    simp [extRev, h2, hlen]
  by_cases hlen1 : (rb.takeWhile notDot).length + 1 = rb.length
  · left
    simp [extRev, h2, hlen, hlen1]
  right
  have hval : extRev rb = rb.takeWhile notDot ++ ['.'] := by
    simp [extRev, h2, hlen, hlen1]
  have hsplit : rb.takeWhile notDot ++ rb.dropWhile notDot = rb :=
    List.takeWhile_append_dropWhile notDot rb
  cases hrest : rb.dropWhile notDot with
  | nil =>
    exfalso
    apply hlen
    rw [hrest, List.append_nil] at hsplit
    rw [hsplit]
  | cons d tl =>
    have hd : notDot d = false := by
      have h0 := List.head?_dropWhile_not notDot rb
      rw [hrest] at h0
      simpa using h0
    have hd' : d = '.' := by
      simpa [notDot] using hd
    have hrb : rb = rb.takeWhile notDot ++ '.' :: tl := by
      conv_lhs => rw [← hsplit]
      rw [hrest, hd']
    refine ⟨rb.takeWhile notDot, tl, hrb, ?_, ?_, h2, hval⟩
    · intro htl
      apply hlen1
      have hlen2 := congrArg List.length hrb
      rw [htl] at hlen2
      simp at hlen2
      omega
    · intro c hc
      have hmem := List.mem_takeWhile_imp hc
      simpa [notDot] using hmem

theorem extname_data (p : String) :
    (extname p).data = (extRev (p.data.reverse.takeWhile notSlash)).reverse := rfl

theorem lowerStr_data (s : String) : (lowerStr s).data = s.data.map Char.toLower := rfl

/-- Computing `extRev` on the lowercased reconstruction of a reversed path
whose reversed basename was `pre ++ '.' :: tl` gives the lowercased reversed
extension. -/
theorem extRev_lower_append (pre tl rest : List Char)
    (htl : tl ≠ [])
    (hpredot : ∀ c ∈ pre, c ≠ '.')
    (hpreslash : ∀ c ∈ pre, c ≠ '/')
    (htlslash : ∀ c ∈ tl, c ≠ '/')
    (hne2 : pre ++ '.' :: tl ≠ ['.', '.'])
    (hrest : rest.takeWhile notSlash = []) :
    extRev (((pre.map Char.toLower ++ ['.']) ++ (tl ++ rest)).takeWhile notSlash)
      = pre.map Char.toLower ++ ['.'] := by
  have h1 : ∀ c ∈ pre.map Char.toLower ++ ['.'], notSlash c = true := by
    intro c hc
    rcases List.mem_append.mp hc with hc | hc
    · obtain ⟨a, ha, rfl⟩ := List.mem_map.mp hc
      simpa [notSlash] using toLower_ne_slash (hpreslash a ha)
    · simp only [List.mem_singleton] at hc
      subst hc
      decide
  have h2 : ∀ c ∈ tl, notSlash c = true := by
    intro c hc
    simpa [notSlash] using htlslash c hc
  have hrb' : ((pre.map Char.toLower ++ ['.']) ++ (tl ++ rest)).takeWhile notSlash
      = pre.map Char.toLower ++ '.' :: tl := by
    rw [List.takeWhile_append_of_pos h1, List.takeWhile_append_of_pos h2, hrest,
      List.append_nil, List.append_assoc, List.singleton_append]
  rw [hrb']
  have hlentl : 0 < tl.length := List.length_pos.mpr htl
  have hne2' : pre.map Char.toLower ++ '.' :: tl ≠ ['.', '.'] := by
    intro h
    apply hne2
    have hlenh := congrArg List.length h
    simp only [List.length_append, List.length_map, List.length_cons,
      List.length_nil] at hlenh
    have hpre0 : pre = [] := List.eq_nil_of_length_eq_zero (by omega)
    subst hpre0
    simpa using h
  have hpre' : (pre.map Char.toLower ++ '.' :: tl).takeWhile notDot
      = pre.map Char.toLower := by
    have hall : ∀ c ∈ pre.map Char.toLower, notDot c = true := by
      intro c hc
      obtain ⟨a, ha, rfl⟩ := List.mem_map.mp hc
      simpa [notDot] using toLower_ne_dot (hpredot a ha)
    rw [List.takeWhile_append_of_pos hall, List.takeWhile_cons_of_neg (by simp [notDot]),
      List.append_nil]
  unfold extRev
  rw [if_neg hne2', hpre']
  rw [if_neg (by simp only [List.length_append, List.length_map, List.length_cons]; omega),
    if_neg (by simp only [List.length_append, List.length_map, List.length_cons]; omega)]

/-- Reversal of the data of `lowerExtPath p`, when the reversed basename of
`p` splits as `pre ++ '.' :: tl`. -/
theorem lowerExtPath_data_reverse (p : String) (pre tl : List Char)
    (hrb : p.data.reverse.takeWhile notSlash = pre ++ '.' :: tl)
    (hval : extRev (p.data.reverse.takeWhile notSlash) = pre ++ ['.']) :
    (lowerExtPath p).data.reverse =
      (pre.map Char.toLower ++ ['.']) ++ (tl ++ p.data.reverse.dropWhile notSlash) := by
  have hed : (extname p).data = '.' :: pre.reverse := by
    rw [extname_data, hval]
    simp
  have hklen : (extname p).data.length = pre.length + 1 := by
    rw [hed]
    simp
  have hkle : pre.length + 1 ≤ p.data.length := by
    have h1 : (p.data.reverse.takeWhile notSlash).length ≤ p.data.reverse.length :=
      (List.takeWhile_sublist notSlash).length_le
    rw [hrb] at h1
    simp only [List.length_append, List.length_cons, List.length_reverse] at h1
    omega
  have hdata : (lowerExtPath p).data =
      p.data.take (p.data.length - (pre.length + 1)) ++
        ('.' :: pre.reverse).map Char.toLower := by
    show p.data.take (p.data.length - (extname p).data.length) ++
        (extname p).data.map Char.toLower = _
    rw [hklen, hed]
  rw [hdata, List.reverse_append]
  congr 1
  · -- reversed lowered extension
    rw [← List.map_reverse]
    simp [toLower_dot]
  · -- reversed stem
    rw [List.reverse_take]
    have hnn : p.data.length - (p.data.length - (pre.length + 1)) = pre.length + 1 := by
      omega
    rw [hnn]
    have hsplit : p.data.reverse.takeWhile notSlash ++ p.data.reverse.dropWhile notSlash
        = p.data.reverse := List.takeWhile_append_dropWhile notSlash p.data.reverse
    conv_lhs => rw [← hsplit, hrb]
    rw [show pre ++ '.' :: tl ++ p.data.reverse.dropWhile notSlash
        = (pre ++ ['.']) ++ (tl ++ p.data.reverse.dropWhile notSlash) by simp]
    exact List.drop_left' (by simp)

/-- Lowercasing a path's extension yields a path whose extension is the
lowercased extension of the original path. -/
theorem extname_lowerExtPath (p : String) :
    extname (lowerExtPath p) = lowerStr (extname p) := by
  rcases extRev_cases (p.data.reverse.takeWhile notSlash) with hnil |
    ⟨pre, tl, hrb, htl, hpredot, hne2, hval⟩
  · have he : (extname p).data = [] := by
      rw [extname_data, hnil]
      rfl
    have hlep : lowerExtPath p = p := by
      apply String.ext
      show p.data.take (p.data.length - (extname p).data.length) ++
        (extname p).data.map Char.toLower = p.data
      rw [he]
      simp
    rw [hlep]
    apply String.ext
    rw [lowerStr_data, he]
    rfl
  · have hslash : ∀ c ∈ pre ++ '.' :: tl, c ≠ '/' := by
      intro c hc
      rw [← hrb] at hc
      have := List.mem_takeWhile_imp hc
      simpa [notSlash] using this
    have hpreslash : ∀ c ∈ pre, c ≠ '/' := fun c hc =>
      hslash c (List.mem_append_left _ hc)
    have htlslash : ∀ c ∈ tl, c ≠ '/' := fun c hc =>
      hslash c (List.mem_append_right _ (List.mem_cons_of_mem _ hc))
    have hne2' : pre ++ '.' :: tl ≠ ['.', '.'] := by
      rw [← hrb]
      exact hne2
    have hrest : (p.data.reverse.dropWhile notSlash).takeWhile notSlash = [] := by
      cases hr : p.data.reverse.dropWhile notSlash with
      | nil => rfl
      | cons r rs =>
        have h0 := List.head?_dropWhile_not notSlash p.data.reverse
        rw [hr] at h0
        simp at h0
        rw [List.takeWhile_cons_of_neg (by simp [h0])]
    have hed : (extname p).data = '.' :: pre.reverse := by
      rw [extname_data, hval]
      simp
    have hrev := lowerExtPath_data_reverse p pre tl hrb hval
    apply String.ext
    rw [lowerStr_data, extname_data, hrev, hed,
      extRev_lower_append pre tl _ htl hpredot hpreslash htlslash hne2' hrest]
    rw [List.reverse_append, ← List.map_reverse]
    simp [toLower_dot]

theorem lowerStr_idem (s : String) : lowerStr (lowerStr s) = lowerStr s := by
  apply String.ext
  show (s.data.map Char.toLower).map Char.toLower = s.data.map Char.toLower
  rw [List.map_map]
  exact List.map_congr_left fun a _ => toLower_idem a

/-! ## `GeminiService.uploadFile` (`src/services/gemini.ts`, `@google/genai` version)

```ts
const ext = path.extname(filePath).toLowerCase();
let mimeType: string;
if (['.jpg', '.jpeg'].includes(ext)) { mimeType = 'image/jpeg'; }
else if (ext === '.png') { mimeType = 'image/png'; }
else if (ext === '.webp') { mimeType = 'image/webp'; }
else if (ext === '.mp4') { mimeType = 'video/mp4'; }
else if (ext === '.mp3') { mimeType = 'audio/mp3'; }
else if (ext === '.wav') { mimeType = 'audio/wav'; }
else if (ext === '.ogg') { mimeType = 'audio/ogg'; }
else { throw new Error(`Unsupported file extension: ...`); }
const uploadedFile = await this.client.files.upload({file: filePath, config: {mimeType}});
if (!uploadedFile.uri) { throw new Error('File upload failed: No URI returned'); }
return { uri: uploadedFile.uri, mimeType };
```

The remote SDK call `this.client.files.upload` is passed in as an oracle
`filesUpload`; each invocation is recorded in the returned call list. A
thrown JavaScript error is an `Except.error`. `uploadedFile.uri`, an
optional string field, is modelled as `Option String`; the JavaScript
falsiness test `!uploadedFile.uri` also fails on the empty string.
-/

/-- The MIME classification if-chain of `uploadFile`, taking the already
lowercased extension. -/
def mimeTypeForExt (ext : String) : Option String :=
  if ext = ".jpg" ∨ ext = ".jpeg" then some "image/jpeg"
  else if ext = ".png" then some "image/png"
  else if ext = ".webp" then some "image/webp"
  else if ext = ".mp4" then some "video/mp4"
  else if ext = ".mp3" then some "audio/mp3"
  else if ext = ".wav" then some "audio/wav"
  else if ext = ".ogg" then some "audio/ogg"
  else none

/-- Shape of the response of `this.client.files.upload`: only the fields the
repository reads or that the claims mention (`uri` and the remote
identifier `name`), both optional in the SDK. -/
structure UploadResponse where
  uri : Option String
  name : Option String
deriving DecidableEq, Repr

/-- Outcome of the `files.upload` SDK call: a response, or a thrown error. -/
inductive UploadOutcome where
  | ok (resp : UploadResponse)
  | raise (msg : String)
deriving DecidableEq, Repr

/-- The errors `uploadFile` can throw, with their message texts. -/
inductive UploadError where
  | unsupportedExtension (ext : String)
  | noUriReturned
  | remote (msg : String)
deriving DecidableEq, Repr

/-- The JavaScript `error.message` of each `UploadError`. -/
def UploadError.message : UploadError → String
  | .unsupportedExtension ext => "Unsupported file extension: " ++ ext
  | .noUriReturned => "File upload failed: No URI returned"
  | .remote m => m

/-- The `GeminiFile` interface (`src/types/index.ts`). -/
structure GeminiFile where
  uri : String
  mimeType : String
deriving DecidableEq, Repr

/-- A network call made by `uploadFile` (it only ever calls `files.upload`). -/
inductive RemoteCall where
  | upload (path : String) (mimeType : String)
deriving DecidableEq, Repr

/-- Embedding of `GeminiService.uploadFile`: the thrown error or the `GeminiFile`,
together with the list of network calls made. -/
def uploadFile (filesUpload : String → String → UploadOutcome) (filePath : String) :
    Except UploadError GeminiFile × List RemoteCall :=
  let ext := lowerStr (extname filePath)
  match mimeTypeForExt ext with
  | none => (.error (.unsupportedExtension ext), [])
  | some mimeType =>
    match filesUpload filePath mimeType with
    | .raise m => (.error (.remote m), [.upload filePath mimeType])
    | .ok resp =>
      match resp.uri with
      | none => (.error .noUriReturned, [.upload filePath mimeType])
      | some u =>
        if u = "" then (.error .noUriReturned, [.upload filePath mimeType])
        else (.ok { uri := u, mimeType := mimeType }, [.upload filePath mimeType])

/-! ## `GeminiService.processFile` (`src/services/gemini.ts`)

```ts
try {
  const response = await this.client.models.generateContent({
    model: modelName,
    contents: createUserContent([createPartFromUri(file.uri, file.mimeType), prompt])
  });
  const responseText = response.text || '';
  return { text: responseText };
} catch (error) {
  return { text: `Error processing file: ...`, isError: true };
}
```
-/

/-- Outcome of the `models.generateContent` SDK call: a response whose
optional `text` field is modelled as `Option String`, or a thrown error. -/
inductive GenerateOutcome where
  | ok (text : Option String)
  | raise (msg : String)
deriving DecidableEq, Repr

/-- The `GeminiResponse` interface (`src/types/index.ts`); the optional
`isError` field defaults to absent/false. -/
structure GeminiResponse where
  text : String
  isError : Bool := false
deriving DecidableEq, Repr

/-- Embedding of `GeminiService.processFile`. The `generateContent` oracle receives the
model name, the file URI, the file MIME type and the prompt. The catch-all
makes this total: a thrown collaborator error becomes an error response. -/
def processFile (generateContent : String → String → String → String → GenerateOutcome)
    (file : GeminiFile) (prompt : String) (modelName : String) : GeminiResponse :=
  match generateContent modelName file.uri file.mimeType prompt with
  | .ok t => { text := match t with | none => "" | some s => s }
  | .raise m => { text := "Error processing file: " ++ m, isError := true }

/-! ## The `video_recognition` tool callback (`src/tools/video-recognition.ts`)

```ts
try {
  if (!fs.existsSync(args.filepath)) { throw new Error(`Video file not found: ...`); }
  const ext = path.extname(args.filepath).toLowerCase();
  if (ext !== '.mp4' && ext !== '.mpeg' && ext !== '.mov' && ext !== '.avi' && ext !== '.webm') {
    throw new Error(`Unsupported video format: ...`);
  }
  const prompt = args.prompt || 'Describe this video';
  const modelName = args.modelname || 'gemini-2.0-flash';
  const file = await geminiService.uploadFile(args.filepath);
  const result = await geminiService.processFile(file, prompt, modelName);
  if (result.isError) { return { content: [...], isError: true }; }
  return { content: [...] };
} catch (error) {
  return { content: [...], text: `Error processing video: ...`], isError: true };
}
```
-/

/-- Parameters of the `video_recognition` tool; `prompt` and `modelname` are
optional at the call site (`args.prompt || default` is also taken when the
value is the falsy empty string). -/
structure VideoRecognitionParams where
  filepath : String
  prompt : Option String := none
  modelname : Option String := none
deriving DecidableEq, Repr

/-- Evaluation of `value || default` on an optional string, as JavaScript evaluates it. -/
def orDefault (v : Option String) (d : String) : String :=
  match v with
  | none => d
  | some s => if s = "" then d else s

/-- A single-text-content `CallToolResult`. -/
structure ToolResult where
  text : String
  isError : Bool := false
deriving DecidableEq, Repr

/-- The tool-layer allowlist check of the video tool: is `ext` (already
lowercased) one of the accepted video extensions? -/
def videoExtAllowed (ext : String) : Bool :=
  ¬(ext ≠ ".mp4" ∧ ext ≠ ".mpeg" ∧ ext ≠ ".mov" ∧ ext ≠ ".avi" ∧ ext ≠ ".webm")

/-- The callback of `createVideoRecognitionTool`. `fsExists` is the
`fs.existsSync` oracle. -/
def videoRecognitionCallback (fsExists : String → Bool)
    (filesUpload : String → String → UploadOutcome)
    (generateContent : String → String → String → String → GenerateOutcome)
    (args : VideoRecognitionParams) : ToolResult :=
  if ¬ fsExists args.filepath then
    { text := "Error processing video: Video file not found: " ++ args.filepath,
      isError := true }
  else
    let ext := lowerStr (extname args.filepath)
    if ¬ videoExtAllowed ext then
      { text := "Error processing video: Unsupported video format: " ++ ext ++
          ". Supported formats are: .mp4, .mpeg, .mov, .avi, .webm",
        isError := true }
    else
      let prompt := orDefault args.prompt "Describe this video"
      let modelName := orDefault args.modelname "gemini-2.0-flash"
      match uploadFile filesUpload args.filepath with
      | (.error e, _) =>
        { text := "Error processing video: " ++ e.message, isError := true }
      | (.ok file, _) =>
        let result := processFile generateContent file prompt modelName
        if result.isError then { text := result.text, isError := true }
        else { text := result.text, isError := false }

/-! ## The upload-cache-and-readiness-polling subsystem

Modelled from the spec: the file of this repository implementing the
`resolve` operation (content-identity cache with TTL, upload dispatch and
the readiness polling loop) is not among the provided sources — only its
caller is (`src/tools/video-recognition.ts` imports `FileState`, which the
provided `src/types/index.ts` does not declare, and notes that `uploadFile`
"will handle waiting for video processing"). The definitions below follow
the spec's §3, §4.1 and §6: content identity is a deterministic digest of
the file's bytes; a `CacheEntry` younger than the 24-hour TTL short-circuits
`resolve`; video uploads in state `Processing` are polled every 2 seconds
against a 300-second ceiling. Time is a virtual clock (`now`, in seconds)
and the two collaborator operations are time-indexed oracles; every
collaborator invocation is recorded in a returned call trace.
-/

/-- Modelled from the spec: the `ReadinessState` of a remote object
(`Processing | Active | Failed`). -/
inductive ReadinessState where
  | Processing
  | Active
  | Failed
deriving DecidableEq, Repr

/-- Modelled from the spec: a `RemoteHandle` — URI, MIME type, remote
identifier and readiness state. -/
structure RemoteHandle where
  uri : String
  mimeType : String
  remoteName : String
  state : ReadinessState
deriving DecidableEq, Repr

/-- Modelled from the spec: a `CacheEntry` `{contentIdentity, RemoteHandle,
storedAtTimestamp}`. -/
structure CacheEntry where
  identity : Nat
  handle : RemoteHandle
  storedAt : Nat
deriving DecidableEq, Repr

/-- Modelled from the spec: the failure taxonomy of `resolve` (§7). -/
inductive ResolveError where
  | UnsupportedFormat (ext : String)
  | UploadFailed (msg : String)
  | MissingRemoteIdentifier
  | RemoteFetchFailed (msg : String)
  | RemoteProcessingFailed
  | ProcessingTimeout
deriving DecidableEq, Repr

/-- Modelled from the spec: the response shape shared by `remoteUpload` and
`remoteFetchStatus` (§6): `{uri, remoteName, mimeType, readinessState}`,
with the identifying fields optional in the remote's response. -/
structure RemoteFileInfo where
  uri : Option String
  remoteName : Option String
  mimeType : String
  state : ReadinessState
deriving DecidableEq, Repr

/-- A collaborator invocation made during `resolve`: an upload, or a status
fetch at a given virtual time. -/
inductive ResolveCall where
  | upload (path : String) (mimeType : String)
  | fetchStatus (time : Nat) (remoteName : String)
deriving DecidableEq, Repr

/-- Modelled from the spec: TTL = 24 hours, in seconds. -/
def TTL : Nat := 24 * 60 * 60

/-- Modelled from the spec: the fixed polling interval (2 seconds). -/
def pollIntervalSeconds : Nat := 2

/-- Modelled from the spec: the polling ceiling (300 seconds). -/
def pollCeilingSeconds : Nat := 300

/-- Structural-recursion bound for the polling loop: more iterations than
can ever pass the time-ceiling check, so the fuel itself is never the
reason the loop stops. -/
def pollFuel : Nat := pollCeilingSeconds / pollIntervalSeconds + 2

/-- Modelled from the spec: the content identity — a deterministic digest of
the file's byte contents (a 64-bit polynomial rolling hash stands in for
the cryptographic digest; the claims depend only on it being a function of
the bytes alone). -/
def contentIdentity (bytes : List Nat) : Nat :=
  bytes.foldl (fun h b => (h * 131 + b % 256) % (2 ^ 64)) 5381

/-- Modelled from the spec: `MediaKind` (§3). -/
inductive MediaKind where
  | Image
  | Audio
  | Video
deriving DecidableEq, Repr

/-- Modelled from the spec: classification of a lowercased extension into a
`MediaKind` and MIME type (§3); unrecognized extensions are rejected. -/
def classifyExtension (ext : String) : Option (MediaKind × String) :=
  if ext = ".jpg" ∨ ext = ".jpeg" then some (.Image, "image/jpeg")
  else if ext = ".png" then some (.Image, "image/png")
  else if ext = ".webp" then some (.Image, "image/webp")
  else if ext = ".mp4" then some (.Video, "video/mp4")
  else if ext = ".mp3" then some (.Audio, "audio/mp3")
  else if ext = ".wav" then some (.Audio, "audio/wav")
  else if ext = ".ogg" then some (.Audio, "audio/ogg")
  else none

/-- Modelled from the spec: the environment of a `resolve` call — virtual
clock, file contents, and the two collaborator operations of §6
(`remoteFetchStatus` is indexed by the virtual time of the call so a test
schedule can drive the poll loop). -/
structure ResolveEnv where
  now : Nat
  read : String → List Nat
  remoteUpload : String → String → Except String RemoteFileInfo
  remoteFetchStatus : Nat → String → Except String RemoteFileInfo

/-- The `RemoteHandle` built from a collaborator response (`nm` is the
remote name already known for the object, kept when the response omits
one). -/
def handleFromInfo (info : RemoteFileInfo) (nm : String) : RemoteHandle :=
  { uri := info.uri.getD ""
    mimeType := info.mimeType
    remoteName := info.remoteName.getD nm
    state := info.state }

/-- One fetch of the polling loop: a failing status call aborts with
`RemoteFetchFailed`; a successful one records the call and continues the
loop (`k`) on the refreshed handle. -/
def pollContinue (res : Except String RemoteFileInfo) (nm : String) (t : Nat)
    (k : RemoteHandle → Except ResolveError RemoteHandle × List ResolveCall) :
    Except ResolveError RemoteHandle × List ResolveCall :=
  match res with
  | .error m => (.error (.RemoteFetchFailed m), [.fetchStatus t nm])
  | .ok info =>
    ((k (handleFromInfo info nm)).1,
      .fetchStatus t nm :: (k (handleFromInfo info nm)).2)

/-- Modelled from the spec: the readiness polling loop (§4.1). While the
state is `Processing` (neither `Active` nor `Failed`), wait the fixed
interval, then re-fetch; exit on `Active` (success), `Failed`
(`RemoteProcessingFailed`), or once the elapsed time since `start` exceeds
the ceiling (`ProcessingTimeout`, checked first, regardless of current
state). `fuel` only bounds the structural recursion and is chosen so the
ceiling check always fires first; an exhausted-fuel loop also reports the
timeout. -/
def pollReadiness (fetch : Nat → String → Except String RemoteFileInfo)
    (nm : String) (start : Nat) :
    Nat → Nat → RemoteHandle → Except ResolveError RemoteHandle × List ResolveCall
  | 0, t, h =>
    if t - start > pollCeilingSeconds then (.error .ProcessingTimeout, [])
    else if h.state = .Active then (.ok h, [])
    else if h.state = .Failed then (.error .RemoteProcessingFailed, [])
    else (.error .ProcessingTimeout, [])
  | fuel + 1, t, h =>
    if t - start > pollCeilingSeconds then (.error .ProcessingTimeout, [])
    else if h.state = .Active then (.ok h, [])
    else if h.state = .Failed then (.error .RemoteProcessingFailed, [])
    else
      pollContinue (fetch (t + pollIntervalSeconds) nm) nm (t + pollIntervalSeconds)
        (pollReadiness fetch nm start fuel (t + pollIntervalSeconds))

/-- Modelled from the spec: step 1 of `resolve` — the content identity of
the file at `path`, a digest of its bytes. -/
def resolveIdentity (env : ResolveEnv) (path : String) : Nat :=
  contentIdentity (env.read path)

/-- Modelled from the spec: insert/replace the cache entry for an identity
(at most one entry per identity). -/
def storeEntry (cache : List CacheEntry) (e : CacheEntry) : List CacheEntry :=
  e :: cache.filter (fun c => c.identity ≠ e.identity)

/-- Modelled from the spec: steps 3–7 of `resolve` — classification, upload,
optional readiness polling, and caching of the final handle. Failures are
not cached. -/
def resolveFresh (env : ResolveEnv) (cache : List CacheEntry) (path : String)
    (id : Nat) : Except ResolveError RemoteHandle × List CacheEntry × List ResolveCall :=
  match classifyExtension (lowerStr (extname path)) with
  | none => (.error (.UnsupportedFormat (lowerStr (extname path))), cache, [])
  | some (kind, mimeType) =>
    match env.remoteUpload path mimeType with
    | .error m => (.error (.UploadFailed m), cache, [.upload path mimeType])
    | .ok info =>
      if info.uri = none then
        (.error (.UploadFailed "missing URI in upload response"), cache,
          [.upload path mimeType])
      else if kind = .Video ∧ info.state = .Processing then
        match info.remoteName with
        | none => (.error .MissingRemoteIdentifier, cache, [.upload path mimeType])
        | some nm =>
          let polled := pollReadiness env.remoteFetchStatus nm env.now pollFuel env.now
            (handleFromInfo info nm)
          match polled.1 with
          | .error e => (.error e, cache, .upload path mimeType :: polled.2)
          | .ok hFinal =>
            (.ok hFinal, storeEntry cache ⟨id, hFinal, env.now⟩,
              .upload path mimeType :: polled.2)
      else
        let h := handleFromInfo info (info.remoteName.getD "")
        (.ok h, storeEntry cache ⟨id, h, env.now⟩, [.upload path mimeType])

/-- Modelled from the spec: `resolve(filePath)` (§4.1) — compute the content
identity, return a young cache entry's handle without any collaborator
call, otherwise perform a fresh upload. -/
def resolve (env : ResolveEnv) (cache : List CacheEntry) (path : String) :
    Except ResolveError RemoteHandle × List CacheEntry × List ResolveCall :=
  let id := resolveIdentity env path
  match cache.find? (fun e => e.identity == id) with
  | some entry =>
    if env.now - entry.storedAt ≤ TTL then (.ok entry.handle, cache, [])
    else resolveFresh env cache path id
  | none => resolveFresh env cache path id

/-! ## Shared helper lemmas -/

example : extname "dir/file.mp4" = ".mp4" := by decide
example : extname "archive.tar.gz" = ".gz" := by decide
example : extname ".bashrc" = "" := by decide
example : extname "noext" = "" := by decide
example : extname "trailing." = "." := by decide
example : extname "a.b/c" = "" := by decide
example : extname ".." = "" := by decide
example : lowerStr (extname "CLIP.MP4") = ".mp4" := by decide

/-- Helper: `uploadFile` on an unclassifiable extension throws before any network
call. -/
theorem uploadFile_mime_none (filesUpload : String → String → UploadOutcome)
    (p : String) (h : mimeTypeForExt (lowerStr (extname p)) = none) :
    uploadFile filesUpload p =
      (.error (.unsupportedExtension (lowerStr (extname p))), []) := by
  simp only [uploadFile]
  rw [h]

/-- Unfolding step of the polling loop: within the ceiling, a handle already
`Active` exits successfully without further calls. -/
theorem pollReadiness_active (fetch : Nat → String → Except String RemoteFileInfo)
    (nm : String) (start fuel t : Nat) (h : RemoteHandle)
    (hle : t - start ≤ pollCeilingSeconds) (hst : h.state = .Active) :
    pollReadiness fetch nm start fuel t h = (.ok h, []) := by
  cases fuel <;>
    · unfold pollReadiness
      rw [if_neg (by omega), if_pos hst]

/-- Unfolding step of the polling loop: above the ceiling the loop fails
with the timeout, regardless of the current state. -/
theorem pollReadiness_timeout (fetch : Nat → String → Except String RemoteFileInfo)
    (nm : String) (start fuel t : Nat) (h : RemoteHandle)
    (hgt : t - start > pollCeilingSeconds) :
    pollReadiness fetch nm start fuel t h = (.error .ProcessingTimeout, []) := by
  cases fuel <;>
    · unfold pollReadiness
      rw [if_pos hgt]

/-- Unfolding step of the polling loop: within the ceiling and still
`Processing`, wait the interval, fetch, record the call and continue. -/
theorem pollReadiness_step (fetch : Nat → String → Except String RemoteFileInfo)
    (nm : String) (start fuel t t' : Nat) (h : RemoteHandle) (info : RemoteFileInfo)
    (ht' : t' = t + pollIntervalSeconds)
    (hle : t - start ≤ pollCeilingSeconds) (hst : h.state = .Processing)
    (hfetch : fetch t' nm = .ok info) :
    pollReadiness fetch nm start (fuel + 1) t h =
      ((pollReadiness fetch nm start fuel t' (handleFromInfo info nm)).1,
        .fetchStatus t' nm ::
          (pollReadiness fetch nm start fuel t' (handleFromInfo info nm)).2) := by
  subst ht'
  conv_lhs => rw [pollReadiness]
  rw [if_neg (by omega), if_neg (by simp [hst]), if_neg (by simp [hst]), hfetch]
  rfl

/-- If every status fetch reports `Processing`, the polling loop can only
end in the timeout. -/
theorem pollReadiness_always_processing
    (fetch : Nat → String → Except String RemoteFileInfo) (nm : String) (start : Nat)
    (hf : ∀ t, ∃ info, fetch t nm = .ok info ∧ info.state = .Processing) :
    ∀ fuel t (h : RemoteHandle), h.state = .Processing →
      (pollReadiness fetch nm start fuel t h).1 = .error .ProcessingTimeout := by
  intro fuel
  induction fuel with
  | zero =>
    intro t h hst
    by_cases hgt : t - start > pollCeilingSeconds
    · rw [pollReadiness_timeout fetch nm start 0 t h hgt]
    · unfold pollReadiness
      rw [if_neg hgt, hst]
      simp
  | succ fuel' ih =>
    intro t h hst
    by_cases hgt : t - start > pollCeilingSeconds
    · rw [pollReadiness_timeout fetch nm start (fuel' + 1) t h hgt]
    · obtain ⟨info, hfetch, hstate⟩ := hf (t + pollIntervalSeconds)
      rw [pollReadiness_step fetch nm start fuel' t (t + pollIntervalSeconds) h info
        rfl (by omega) hst hfetch]
      exact ih (t + pollIntervalSeconds) (handleFromInfo info nm) hstate

/-! ## Claims -/

/-- C1: for every file whose content identity already has a populated,
non-expired `CacheEntry` (stored less than TTL = 24 hours ago), a second
call to `resolve` with that content invokes neither `remoteUpload` nor
`remoteFetchStatus` (the collaborator-call trace is empty) and returns the
previously stored `RemoteHandle` unchanged (cache also unchanged). -/
theorem resolve_cache_hit (env : ResolveEnv) (cache : List CacheEntry)
    (path : String) (entry : CacheEntry)
    (hfind : cache.find? (fun e => e.identity == resolveIdentity env path)
      = some entry)
    (hfresh : env.now - entry.storedAt ≤ TTL) :
    resolve env cache path = (.ok entry.handle, cache, []) := by
  simp only [resolve]
  rw [hfind]
  simp [hfresh]

/-- Witness for C1: a concrete environment and a cache populated 100 seconds
ago returns the stored handle with no collaborator call. -/
theorem resolve_cache_hit_witness :
    resolve
      { now := 1000, read := fun _ => [1, 2, 3],
        remoteUpload := fun _ _ => .error "offline",
        remoteFetchStatus := fun _ _ => .error "offline" }
      [⟨contentIdentity [1, 2, 3],
        ⟨"https://files.example/h", "video/mp4", "files/h", .Active⟩, 900⟩]
      "vid.mp4"
    = (.ok ⟨"https://files.example/h", "video/mp4", "files/h", .Active⟩,
        [⟨contentIdentity [1, 2, 3],
          ⟨"https://files.example/h", "video/mp4", "files/h", .Active⟩, 900⟩],
        []) :=
  resolve_cache_hit
    { now := 1000, read := fun _ => [1, 2, 3],
      remoteUpload := fun _ _ => .error "offline",
      remoteFetchStatus := fun _ _ => .error "offline" }
    [⟨contentIdentity [1, 2, 3],
      ⟨"https://files.example/h", "video/mp4", "files/h", .Active⟩, 900⟩]
    "vid.mp4"
    ⟨contentIdentity [1, 2, 3],
      ⟨"https://files.example/h", "video/mp4", "files/h", .Active⟩, 900⟩
    (by decide) (by decide)

/-- C4: `resolve` computes the content identity as a function of the file's
bytes only, so two paths whose contents are byte-identical get the same
identity (the cache key), regardless of path or filename. -/
theorem resolveIdentity_depends_only_on_bytes (env : ResolveEnv) (p q : String)
    (hbytes : env.read p = env.read q) :
    resolveIdentity env p = resolveIdentity env q := by
  unfold resolveIdentity
  rw [hbytes]

/-- Witness for C4: two distinct paths with identical contents. -/
theorem resolveIdentity_depends_only_on_bytes_witness :
    resolveIdentity
      { now := 0, read := fun _ => [7, 8, 9],
        remoteUpload := fun _ _ => .error "offline",
        remoteFetchStatus := fun _ _ => .error "offline" } "a/x.mp4"
    = resolveIdentity
      { now := 0, read := fun _ => [7, 8, 9],
        remoteUpload := fun _ _ => .error "offline",
        remoteFetchStatus := fun _ _ => .error "offline" } "b/y.avi" :=
  resolveIdentity_depends_only_on_bytes _ _ _ rfl

/-- C5: `uploadFile` on a path whose (lowercased) extension is not in the
recognized set throws the unsupported-extension error and performs no
network call (the call trace is empty). -/
theorem uploadFile_unsupported_no_network
    (filesUpload : String → String → UploadOutcome) (p : String)
    (h : mimeTypeForExt (lowerStr (extname p)) = none) :
    uploadFile filesUpload p =
      (.error (.unsupportedExtension (lowerStr (extname p))), []) :=
  uploadFile_mime_none filesUpload p h

/-- Witness for C5: a `.txt` path is rejected with no upload call. -/
theorem uploadFile_unsupported_no_network_witness :
    uploadFile (fun _ _ => .raise "unreachable") "notes.txt"
      = (.error (.unsupportedExtension ".txt"), []) :=
  uploadFile_unsupported_no_network _ "notes.txt" (by decide)

/-- C6: `uploadFile` classifies each recognized extension to exactly the
MIME type of the table (.jpg/.jpeg → image/jpeg, .png → image/png,
.webp → image/webp, .mp3 → audio/mp3, .wav → audio/wav, .ogg → audio/ogg,
.mp4 → video/mp4), and every successfully returned `GeminiFile` carries the
MIME type classified from the path's extension. -/
theorem uploadFile_mime_table :
    mimeTypeForExt ".jpg" = some "image/jpeg" ∧
    mimeTypeForExt ".jpeg" = some "image/jpeg" ∧
    mimeTypeForExt ".png" = some "image/png" ∧
    mimeTypeForExt ".webp" = some "image/webp" ∧
    mimeTypeForExt ".mp3" = some "audio/mp3" ∧
    mimeTypeForExt ".wav" = some "audio/wav" ∧
    mimeTypeForExt ".ogg" = some "audio/ogg" ∧
    mimeTypeForExt ".mp4" = some "video/mp4" ∧
    ∀ (filesUpload : String → String → UploadOutcome) (p : String)
      (f : GeminiFile) (calls : List RemoteCall),
      uploadFile filesUpload p = (.ok f, calls) →
      some f.mimeType = mimeTypeForExt (lowerStr (extname p)) := by
  refine ⟨rfl, rfl, rfl, rfl, rfl, rfl, rfl, rfl, ?_⟩
  intro filesUpload p f calls h
  simp only [uploadFile] at h
  split at h
  · simp at h
  · rename_i mt hm
    split at h
    · simp at h
    · rename_i resp hu
      split at h
      · simp at h
      · rename_i u hr
        split at h
        · simp at h
        · simp only [Prod.mk.injEq, Except.ok.injEq] at h
          rw [← h.1, hm]

/-- Witness for C6 (for the quantified final conjunct): a successful upload
of a `.jpg` path returns a file carrying exactly the classified MIME
type. -/
theorem uploadFile_mime_table_witness :
    some (GeminiFile.mk "https://files.example/p" "image/jpeg").mimeType
      = mimeTypeForExt (lowerStr (extname "photo.jpg")) :=
  uploadFile_mime_table.2.2.2.2.2.2.2.2
    (fun _ _ => .ok ⟨some "https://files.example/p", some "files/p"⟩)
    "photo.jpg" ⟨"https://files.example/p", "image/jpeg"⟩
    [.upload "photo.jpg" "image/jpeg"] rfl

/-- C7 counterexample: an upload response that has a URI but lacks a remote
identifier (`name = none`) does not make `uploadFile` fail — it returns a
handle, because only the URI is checked. -/
theorem uploadFile_missing_name_still_succeeds :
    (UploadResponse.mk (some "https://files.example/abc") none).name = none ∧
    uploadFile (fun _ _ => .ok ⟨some "https://files.example/abc", none⟩) "clip.mp4"
      = (.ok ⟨"https://files.example/abc", "video/mp4"⟩,
          [.upload "clip.mp4" "video/mp4"]) :=
  ⟨rfl, rfl⟩

/-- C7 (amended): if the upload response lacks a URI (absent, or the falsy
empty string), `uploadFile` fails with the upload-failed error ("No URI
returned") and returns no handle; the remote identifier is not
inspected. -/
theorem uploadFile_missing_uri_fails
    (filesUpload : String → String → UploadOutcome) (p mt : String)
    (resp : UploadResponse)
    (hmime : mimeTypeForExt (lowerStr (extname p)) = some mt)
    (hup : filesUpload p mt = .ok resp)
    (huri : resp.uri = none ∨ resp.uri = some "") :
    uploadFile filesUpload p = (.error .noUriReturned, [.upload p mt]) := by
  rcases huri with h | h <;>
    simp [uploadFile, hmime, hup, h]

/-- Witness for the amended C7: a response with no URI fails the upload. -/
theorem uploadFile_missing_uri_fails_witness :
    uploadFile (fun _ _ => .ok ⟨none, some "files/x"⟩) "pic.png"
      = (.error .noUriReturned, [.upload "pic.png" "image/png"]) :=
  uploadFile_missing_uri_fails _ "pic.png" "image/png" ⟨none, some "files/x"⟩
    (by decide) rfl (Or.inl rfl)

/-- C9: `processFile` is total at its public interface; when the
generate-content collaborator call throws, it returns a `GeminiResponse`
with `isError = true` whose text is `"Error processing file: "` followed by
the error message, instead of propagating the exception. -/
theorem processFile_error_is_captured
    (generateContent : String → String → String → String → GenerateOutcome)
    (file : GeminiFile) (prompt modelName msg : String)
    (h : generateContent modelName file.uri file.mimeType prompt = .raise msg) :
    processFile generateContent file prompt modelName
      = { text := "Error processing file: " ++ msg, isError := true } := by
  unfold processFile
  rw [h]

/-- Witness for C9: a throwing collaborator yields an error response. -/
theorem processFile_error_is_captured_witness :
    processFile (fun _ _ _ _ => .raise "boom") ⟨"u", "video/mp4"⟩ "p" "m"
      = { text := "Error processing file: boom", isError := true } :=
  processFile_error_is_captured _ ⟨"u", "video/mp4"⟩ "p" "m" "boom" rfl

/-- C2: a video upload whose initial state is `Processing` enters the
polling loop with its fixed 2-second interval; when two status fetches
(at +2 s and +4 s) return `Processing` and the third (at +6 s) returns
`Active`, `resolve` succeeds with a handle whose state is `Active`, and the
call trace records the upload followed by exactly three status fetches. -/
theorem resolve_video_polls_until_active (env : ResolveEnv) (path : String)
    (info r1 r2 r3 : RemoteFileInfo) (u nm : String)
    (hext : lowerStr (extname path) = ".mp4")
    (hup : env.remoteUpload path "video/mp4" = .ok info)
    (huri : info.uri = some u)
    (hnm : info.remoteName = some nm)
    (hst : info.state = .Processing)
    (h1 : env.remoteFetchStatus (env.now + 2) nm = .ok r1)
    (h1s : r1.state = .Processing)
    (h2 : env.remoteFetchStatus (env.now + 4) nm = .ok r2)
    (h2s : r2.state = .Processing)
    (h3 : env.remoteFetchStatus (env.now + 6) nm = .ok r3)
    (h3s : r3.state = .Active) :
    resolve env [] path =
      (.ok (handleFromInfo r3 nm),
        [⟨resolveIdentity env path, handleFromInfo r3 nm, env.now⟩],
        [.upload path "video/mp4", .fetchStatus (env.now + 2) nm,
          .fetchStatus (env.now + 4) nm, .fetchStatus (env.now + 6) nm]) ∧
    (handleFromInfo r3 nm).state = .Active := by
  have h300 : pollCeilingSeconds = 300 := rfl
  have hint : pollIntervalSeconds = 2 := rfl
  have hfuel : pollFuel = 151 + 1 := rfl
  have hp3 : pollReadiness env.remoteFetchStatus nm env.now 149 (env.now + 6)
      (handleFromInfo r3 nm) = (.ok (handleFromInfo r3 nm), []) :=
    pollReadiness_active _ _ _ 149 _ _ (by omega) (by simp [handleFromInfo, h3s])
  have hp2 : pollReadiness env.remoteFetchStatus nm env.now 150 (env.now + 4)
      (handleFromInfo r2 nm)
      = (.ok (handleFromInfo r3 nm), [.fetchStatus (env.now + 6) nm]) := by
    rw [pollReadiness_step env.remoteFetchStatus nm env.now 149 (env.now + 4)
      (env.now + 6) (handleFromInfo r2 nm) r3 (by omega) (by omega)
      (by simp [handleFromInfo, h2s]) h3, hp3]
  have hp1 : pollReadiness env.remoteFetchStatus nm env.now 151 (env.now + 2)
      (handleFromInfo r1 nm)
      = (.ok (handleFromInfo r3 nm),
          [.fetchStatus (env.now + 4) nm, .fetchStatus (env.now + 6) nm]) := by
    rw [pollReadiness_step env.remoteFetchStatus nm env.now 150 (env.now + 2)
      (env.now + 4) (handleFromInfo r1 nm) r2 (by omega) (by omega)
      (by simp [handleFromInfo, h1s]) h2, hp2]
  have hp0 : pollReadiness env.remoteFetchStatus nm env.now pollFuel env.now
      (handleFromInfo info nm)
      = (.ok (handleFromInfo r3 nm),
          [.fetchStatus (env.now + 2) nm, .fetchStatus (env.now + 4) nm,
            .fetchStatus (env.now + 6) nm]) := by
    rw [hfuel, pollReadiness_step env.remoteFetchStatus nm env.now 151 env.now
      (env.now + 2) (handleFromInfo info nm) r1 (by omega) (by omega)
      (by simp [handleFromInfo, hst]) h1, hp1]
  refine ⟨?_, by simp [handleFromInfo, h3s]⟩
  simp only [resolve, List.find?_nil, resolveFresh, hext,
    show classifyExtension ".mp4" = some (MediaKind.Video, "video/mp4") from rfl,
    hup, huri, hnm, hst, hp0, storeEntry, List.filter_nil]
  simp

/-- Witness for C2: a concrete schedule with two `Processing` fetches and an
`Active` third fetch. -/
theorem resolve_video_polls_until_active_witness :
    resolve
      { now := 50, read := fun _ => [4, 5, 6],
        remoteUpload := fun _ _ =>
          .ok ⟨some "https://files.example/v", some "files/v", "video/mp4",
            .Processing⟩,
        remoteFetchStatus := fun t _ =>
          if t < 56 then
            .ok ⟨some "https://files.example/v", some "files/v", "video/mp4",
              .Processing⟩
          else
            .ok ⟨some "https://files.example/v", some "files/v", "video/mp4",
              .Active⟩ }
      [] "movie.mp4"
      = (.ok (handleFromInfo
            ⟨some "https://files.example/v", some "files/v", "video/mp4",
              .Active⟩ "files/v"),
          [⟨resolveIdentity
              { now := 50, read := fun _ => [4, 5, 6],
                remoteUpload := fun _ _ =>
                  .ok ⟨some "https://files.example/v", some "files/v",
                    "video/mp4", .Processing⟩,
                remoteFetchStatus := fun t _ =>
                  if t < 56 then
                    .ok ⟨some "https://files.example/v", some "files/v",
                      "video/mp4", .Processing⟩
                  else
                    .ok ⟨some "https://files.example/v", some "files/v",
                      "video/mp4", .Active⟩ } "movie.mp4",
            handleFromInfo
              ⟨some "https://files.example/v", some "files/v", "video/mp4",
                .Active⟩ "files/v", 50⟩],
          [.upload "movie.mp4" "video/mp4", .fetchStatus 52 "files/v",
            .fetchStatus 54 "files/v", .fetchStatus 56 "files/v"]) ∧
      (handleFromInfo
        ⟨some "https://files.example/v", some "files/v", "video/mp4",
          .Active⟩ "files/v").state = .Active :=
  resolve_video_polls_until_active _ "movie.mp4"
    ⟨some "https://files.example/v", some "files/v", "video/mp4", .Processing⟩
    ⟨some "https://files.example/v", some "files/v", "video/mp4", .Processing⟩
    ⟨some "https://files.example/v", some "files/v", "video/mp4", .Processing⟩
    ⟨some "https://files.example/v", some "files/v", "video/mp4", .Active⟩
    "https://files.example/v" "files/v"
    (by decide) rfl rfl rfl rfl rfl rfl rfl rfl rfl rfl

/-- C3: if every status fetch keeps returning `Processing`, `resolve` fails
with `ProcessingTimeout` once the elapsed time exceeds the 300-second
ceiling, and no cache entry is stored for the content identity. -/
theorem resolve_processing_timeout_nothing_cached (env : ResolveEnv)
    (path : String) (info : RemoteFileInfo) (u nm : String)
    (hext : lowerStr (extname path) = ".mp4")
    (hup : env.remoteUpload path "video/mp4" = .ok info)
    (huri : info.uri = some u)
    (hnm : info.remoteName = some nm)
    (hst : info.state = .Processing)
    (hf : ∀ t, ∃ r, env.remoteFetchStatus t nm = .ok r ∧
      r.state = .Processing) :
    (resolve env [] path).1 = .error .ProcessingTimeout ∧
    (resolve env [] path).2.1 = [] := by
  have hp := pollReadiness_always_processing env.remoteFetchStatus nm env.now hf
    pollFuel env.now (handleFromInfo info nm) (by simp [handleFromInfo, hst])
  rcases hpoll : pollReadiness env.remoteFetchStatus nm env.now pollFuel env.now
    (handleFromInfo info nm) with ⟨a, b⟩
  rw [hpoll] at hp
  simp only at hp
  subst hp
  constructor <;>
    simp only [resolve, List.find?_nil, resolveFresh, hext,
      show classifyExtension ".mp4" = some (MediaKind.Video, "video/mp4") from rfl,
      hup, huri, hnm, hst, hpoll] <;>
    simp

/-- Witness for C3: a concrete environment whose status fetches always
report `Processing` times out and caches nothing. -/
theorem resolve_processing_timeout_nothing_cached_witness :
    (resolve
      { now := 0, read := fun _ => [9, 9],
        remoteUpload := fun _ _ =>
          .ok ⟨some "https://files.example/w", some "files/w", "video/mp4",
            .Processing⟩,
        remoteFetchStatus := fun _ _ =>
          .ok ⟨some "https://files.example/w", some "files/w", "video/mp4",
            .Processing⟩ }
      [] "w.mp4").1 = .error .ProcessingTimeout ∧
    (resolve
      { now := 0, read := fun _ => [9, 9],
        remoteUpload := fun _ _ =>
          .ok ⟨some "https://files.example/w", some "files/w", "video/mp4",
            .Processing⟩,
        remoteFetchStatus := fun _ _ =>
          .ok ⟨some "https://files.example/w", some "files/w", "video/mp4",
            .Processing⟩ }
      [] "w.mp4").2.1 = [] :=
  resolve_processing_timeout_nothing_cached _ "w.mp4"
    ⟨some "https://files.example/w", some "files/w", "video/mp4", .Processing⟩
    "https://files.example/w" "files/w"
    (by decide) rfl rfl rfl rfl
    (fun _ => ⟨⟨some "https://files.example/w", some "files/w", "video/mp4",
      .Processing⟩, rfl, rfl⟩)

/-- C8: for every existing file whose (lowercased) extension is one of
`.mov`, `.avi`, `.webm`, `.mpeg`, the `video_recognition` tool's format
check accepts the path, but `uploadFile` fails with the
unsupported-extension error (making no network call), so the callback
returns an error result rather than a recognition result. -/
theorem videoTool_accepts_but_uploadFile_rejects (fsExists : String → Bool)
    (filesUpload : String → String → UploadOutcome)
    (generateContent : String → String → String → String → GenerateOutcome)
    (args : VideoRecognitionParams) (ext : String)
    (hex : fsExists args.filepath = true)
    (hext : lowerStr (extname args.filepath) = ext)
    (hmem : ext = ".mov" ∨ ext = ".avi" ∨ ext = ".webm" ∨ ext = ".mpeg") :
    videoExtAllowed ext = true ∧
    uploadFile filesUpload args.filepath
      = (.error (.unsupportedExtension ext), []) ∧
    videoRecognitionCallback fsExists filesUpload generateContent args =
      { text := "Error processing video: " ++
          ("Unsupported file extension: " ++ ext),
        isError := true } := by
  have hmime : mimeTypeForExt ext = none := by
    rcases hmem with rfl | rfl | rfl | rfl <;> rfl
  have hall : videoExtAllowed ext = true := by
    rcases hmem with rfl | rfl | rfl | rfl <;> rfl
  have hupl : uploadFile filesUpload args.filepath
      = (.error (.unsupportedExtension ext), []) := by
    have h0 := uploadFile_mime_none filesUpload args.filepath (by rw [hext, hmime])
    rw [hext] at h0
    exact h0
  refine ⟨hall, hupl, ?_⟩
  simp only [videoRecognitionCallback, hex, hext, hall, hupl, Bool.not_true,
    UploadError.message]
  simp

/-- Witness for C8: an existing `.mov` file passes the tool check, is
rejected by `uploadFile`, and the callback reports the error. -/
theorem videoTool_accepts_but_uploadFile_rejects_witness :
    videoExtAllowed ".mov" = true ∧
    uploadFile (fun _ _ => .raise "unreachable") "film.mov"
      = (.error (.unsupportedExtension ".mov"), []) ∧
    videoRecognitionCallback (fun _ => true) (fun _ _ => .raise "unreachable")
      (fun _ _ _ _ => .raise "unreachable") ⟨"film.mov", none, none⟩ =
      { text := "Error processing video: " ++
          ("Unsupported file extension: " ++ ".mov"),
        isError := true } :=
  videoTool_accepts_but_uploadFile_rejects (fun _ => true) _ _
    ⟨"film.mov", none, none⟩ ".mov" rfl (by decide) (Or.inl rfl)

/-- C10: extension classification is case-insensitive — for every file path,
the MIME classification and the video tool's accept decision equal those of
the same path with its extension lowercased; in particular a `.MP4` path
classifies to `video/mp4` exactly like `.mp4` (and `.JPG` to
`image/jpeg`). -/
theorem classification_extension_case_insensitive (p : String) :
    mimeTypeForExt (lowerStr (extname (lowerExtPath p)))
      = mimeTypeForExt (lowerStr (extname p)) ∧
    videoExtAllowed (lowerStr (extname (lowerExtPath p)))
      = videoExtAllowed (lowerStr (extname p)) ∧
    mimeTypeForExt (lowerStr (extname "clip.MP4")) = some "video/mp4" ∧
    mimeTypeForExt (lowerStr (extname "clip.mp4")) = some "video/mp4" ∧
    mimeTypeForExt (lowerStr (extname "photo.JPG")) = some "image/jpeg" := by
  have key : lowerStr (extname (lowerExtPath p)) = lowerStr (extname p) := by
    rw [extname_lowerExtPath, lowerStr_idem]
  exact ⟨by rw [key], by rw [key], by decide, by decide, by decide⟩

end MediaUpload
